import Mathlib

/-!
Verification of the simplified JSONPath evaluator in
`python-runtime/firefly_runtime/json_utils.py`.

The Python data model for deserialized JSON is: `None`, `bool`, `int`/`float`,
`str`, `list`, `dict`.  We embed it as the inductive type `Json` below, with
Python strings modelled as `List Char` and Python dicts as association lists
(Python dicts have unique keys and preserve insertion order, which an
association list with first-match lookup models faithfully).  JSON numbers are
modelled as integers; the evaluator never inspects a number beyond its type,
and both `int` and `float` classify as `"number"`, so the number representation
is irrelevant to every property proved here.

Crucially, Python represents the JSON null value as `None`, and the evaluator
also uses `None` as its "not found" result.  The embedding keeps this
conflation: `Json.null` plays both roles, exactly as in the source.
-/

/-- A deserialized JSON value as the Python runtime holds it.  `Json.null` is
Python `None`, which is both the JSON null value and the evaluator's
"absent" result. -/
inductive Json where
  | null
  | bool (b : Bool)
  | num (n : Int)
  | str (s : List Char)
  | arr (elems : List Json)
  | obj (fields : List (List Char × Json))

/-- Python `field in data` for a dict: key membership. -/
def dict_contains (fields : List (List Char × Json)) (key : List Char) : Bool :=
  match fields with
  | [] => false
  | (k, _) :: rest => if k = key then true else dict_contains rest key

/-- Python `data.get(key)` for a dict: the bound value, or `None` when the key
is missing. -/
def dict_get (fields : List (List Char × Json)) (key : List Char) : Json :=
  match fields with
  | [] => Json.null
  | (k, v) :: rest => if k = key then v else dict_get rest key

/-- Decimal digit test: `'0' <= c <= '9'`. -/
def is_digit (c : Char) : Bool := '0' ≤ c && c ≤ '9'

/-- Decimal value of a digit run. -/
def digits_to_nat (ds : List Char) : Nat :=
  ds.foldl (fun acc c => acc * 10 + (c.toNat - '0'.toNat)) 0

/-- Python `int(s)` on the strings that can arise as bracket contents: an
optional sign followed by at least one decimal digit parses to that integer,
anything else raises `ValueError` (modelled as `none`).  Python also accepts
surrounding whitespace and interior underscores; those exotic forms are not
modelled, and no claim depends on them. -/
def py_int (s : List Char) : Option Int :=
  match s with
  | '-' :: rest =>
      if rest ≠ [] ∧ rest.all is_digit then some (-(digits_to_nat rest : Int)) else none
  | '+' :: rest =>
      if rest ≠ [] ∧ rest.all is_digit then some ((digits_to_nat rest : Int)) else none
  | _ =>
      if s ≠ [] ∧ s.all is_digit then some ((digits_to_nat s : Int)) else none

/-- The loop state of `_parse_path_segments`: segments emitted so far, the
characters of the segment being built, and the in-brackets flag. -/
structure SegState where
  segments : List (List Char)
  current : List Char
  in_brackets : Bool

/-- One iteration of the character loop of `_parse_path_segments`. -/
def seg_step (st : SegState) (c : Char) : SegState :=
  if c = '[' then
    { segments := st.segments ++ (if st.current = [] then [] else [st.current]),
      current := ['['],
      in_brackets := true }
  else if c = ']' then
    { segments := st.segments ++ [st.current ++ [']']],
      current := [],
      in_brackets := false }
  else if c = '.' ∧ st.in_brackets = false then
    { segments := st.segments ++ (if st.current = [] then [] else [st.current]),
      current := [],
      in_brackets := st.in_brackets }
  else
    { st with current := st.current ++ [c] }

/-- Source function `_parse_path_segments(path)`: split a path remainder into segments,
keeping bracketed runs together. -/
def parse_path_segments (path : List Char) : List (List Char) :=
  let st := path.foldl seg_step { segments := [], current := [], in_brackets := false }
  st.segments ++ (if st.current = [] then [] else [st.current])

/-- Source function `_navigate_segment(data, segment)`: navigate a single path segment.
A segment that both starts with `[` and ends with `]` is bracket access
(wildcard `*` passes an array through unchanged; otherwise the content must
parse as an in-range index); every other segment is object field access via
`dict.get`. -/
def navigate_segment (data : Json) (segment : List Char) : Json :=
  if segment.head? = some '[' ∧ segment.getLast? = some ']' then
    let index_str := (segment.drop 1).dropLast
    if index_str = ['*'] then
      match data with
      | Json.arr _ => data
      | _ => Json.null
    else
      match py_int index_str with
      | some index =>
          match data with
          | Json.arr items =>
              if 0 ≤ index ∧ index < (items.length : Int) then
                items.getD index.toNat Json.null
              else Json.null
          | _ => Json.null
      | none => Json.null
  else
    match data with
    | Json.obj fields => dict_get fields segment
    | _ => Json.null

mutual

/-- Source function `_recursive_search(data, field)`: depth-first search for a field.  An
object containing the field as a key returns the bound value immediately;
otherwise the values of an object (in iteration order) and the elements of an
array (in order) are searched in turn, a `None` sub-result being
indistinguishable from "not found". -/
def recursive_search : Json → List Char → Json
  | Json.obj fields, field =>
      if dict_contains fields field then dict_get fields field
      else search_values fields field
  | Json.arr items, field => search_items items field
  | _, _ => Json.null

/-- The `for value in data.values()` loop of `_recursive_search`. -/
def search_values : List (List Char × Json) → List Char → Json
  | [], _ => Json.null
  | (_, v) :: rest, field =>
      match recursive_search v field with
      | Json.null => search_values rest field
      | result => result

/-- The `for item in data` loop of `_recursive_search`. -/
def search_items : List Json → List Char → Json
  | [], _ => Json.null
  | item :: rest, field =>
      match recursive_search item field with
      | Json.null => search_items rest field
      | result => result

end

/-- The `for segment in segments` fold of `json_path_get`, returning `None`
as soon as a segment fails to resolve. -/
def navigate_all (current : Json) (segments : List (List Char)) : Json :=
  match segments with
  | [] => current
  | seg :: rest =>
      match navigate_segment current seg with
      | Json.null => Json.null
      | next => navigate_all next rest

/-- Source function `json_path_get(data, path)`: the path evaluator.  Empty paths and paths
not starting with `$` yield `None`; `$` alone selects the root; `$..field`
dispatches to the recursive search; otherwise the remainder is segmented and
navigated left to right. -/
def json_path_get (data : Json) (path : List Char) : Json :=
  if path = [] ∨ path.head? ≠ some '$' then Json.null
  else
    let p := path.drop 1
    let p := if p.head? = some '.' then p.drop 1 else p
    if p = [] then data
    else if p.head? = some '.' then recursive_search data (p.drop 1)
    else navigate_all data (parse_path_segments p)

/-- Skip JSON whitespace. -/
def skip_ws : List Char → List Char
  | c :: cs => if c = ' ' ∨ c = '\n' ∨ c = '\t' ∨ c = '\r' then skip_ws cs else c :: cs
  | [] => []

/-- Read the body of a quoted string up to the closing quote, returning the
string and the rest of the input.  Escape sequences are not modelled (a
backslash fails the parse). -/
def take_string : List Char → Option (List Char × List Char)
  | [] => none
  | '"' :: rest => some ([], rest)
  | '\\' :: _ => none
  | c :: rest =>
      match take_string rest with
      | some (s, r) => some (c :: s, r)
      | none => none

/-- Split off a leading run of decimal digits. -/
def take_digits : List Char → List Char × List Char
  | c :: cs =>
      if is_digit c then
        let (ds, r) := take_digits cs
        (c :: ds, r)
      else ([], c :: cs)
  | [] => ([], [])

/-- Read an optionally signed integer token. -/
def take_int : List Char → Option (Json × List Char)
  | '-' :: r =>
      match take_digits r with
      | ([], _) => none
      | (ds, rest) => some (Json.num (-(digits_to_nat ds : Int)), rest)
  | s =>
      match take_digits s with
      | ([], _) => none
      | (ds, rest) => some (Json.num (digits_to_nat ds : Int), rest)

mutual

/-- Modelled from the spec: the external JSON text parser (Python
`json.loads`), which is standard-library code and not part of this
repository.  The claims depend only on its success-or-failure interface
("a parse failure on the text form"), so it is modelled as a fuel-bounded
recursive-descent parser for a representative subset of JSON: the literals
`null`/`true`/`false`, optionally signed integers, quoted strings without
escapes, arrays, and objects.  Malformed text fails, as in the source. -/
def parse_value : Nat → List Char → Option (Json × List Char)
  | 0, _ => none
  | Nat.succ fuel, s =>
      match skip_ws s with
      | 'n' :: 'u' :: 'l' :: 'l' :: r => some (Json.null, r)
      | 't' :: 'r' :: 'u' :: 'e' :: r => some (Json.bool true, r)
      | 'f' :: 'a' :: 'l' :: 's' :: 'e' :: r => some (Json.bool false, r)
      | '"' :: r =>
          match take_string r with
          | some (str, rest) => some (Json.str str, rest)
          | none => none
      | '[' :: r =>
          (match skip_ws r with
           | ']' :: r2 => some (Json.arr [], r2)
           | _ =>
              match parse_elems fuel r with
              | some (es, r2) => some (Json.arr es, r2)
              | none => none)
      | '{' :: r =>
          (match skip_ws r with
           | '}' :: r2 => some (Json.obj [], r2)
           | _ =>
              match parse_members fuel r with
              | some (ms, r2) => some (Json.obj ms, r2)
              | none => none)
      | r => take_int r

/-- Comma-separated array elements up to the closing `]`. -/
def parse_elems : Nat → List Char → Option (List Json × List Char)
  | 0, _ => none
  | Nat.succ fuel, s =>
      match parse_value fuel s with
      | some (v, r) =>
          (match skip_ws r with
           | ',' :: r2 =>
              match parse_elems fuel r2 with
              | some (es, r3) => some (v :: es, r3)
              | none => none
           | ']' :: r2 => some ([v], r2)
           | _ => none)
      | none => none

/-- Comma-separated `"key": value` members up to the closing brace. -/
def parse_members : Nat → List Char → Option (List (List Char × Json) × List Char)
  | 0, _ => none
  | Nat.succ fuel, s =>
      match skip_ws s with
      | '"' :: r =>
          (match take_string r with
           | some (k, r2) =>
              (match skip_ws r2 with
               | ':' :: r3 =>
                  (match parse_value fuel r3 with
                   | some (v, r4) =>
                      (match skip_ws r4 with
                       | ',' :: r5 =>
                          match parse_members fuel r5 with
                          | some (ms, r6) => some ((k, v) :: ms, r6)
                          | none => none
                       | '}' :: r5 => some ([(k, v)], r5)
                       | _ => none)
                   | none => none)
               | _ => none)
           | none => none)
      | _ => none

end

/-- Modelled from the spec: Python `json.loads(s)` — parse one JSON value and
require only trailing whitespace after it; anything else is a parse failure
(`none`, standing for the raised `JSONDecodeError`). -/
def loads (s : List Char) : Option Json :=
  match parse_value (s.length + 1) s with
  | some (j, r) => if skip_ws r = [] then some j else none
  | none => none

/-- Source function `firefly_json_get(data, path)`: a `str` argument is first parsed as JSON
text (a parse failure yields `None`); any other value is queried directly. -/
def firefly_json_get (data : Json) (path : List Char) : Json :=
  match data with
  | Json.str s =>
      match loads s with
      | some parsed => json_path_get parsed path
      | none => Json.null
  | _ => json_path_get data path

/-- Source function `firefly_json_exists(data, path)`: `firefly_json_get(data, path) is not
None`. -/
def firefly_json_exists (data : Json) (path : List Char) : Bool :=
  match firefly_json_get data path with
  | Json.null => false
  | _ => true

/-- Python truthiness of the optional `path` argument: `if path:` is true
exactly when `path` is neither `None` nor empty. -/
def path_truthy (path : Option (List Char)) : Bool :=
  match path with
  | some s => !s.isEmpty
  | none => false

/-- The tail of `firefly_json_size`: `len(target)` when the target is a list,
dict, or str, and `0` for every other type. -/
def py_len (target : Json) : Nat :=
  match target with
  | Json.arr items => items.length
  | Json.obj fields => fields.length
  | Json.str s => s.length
  | _ => 0

/-- Source function `firefly_json_size(data, path=None)`: with a truthy path, the length of
the value the path evaluates to; otherwise the length of `data` itself (a
`str` argument being parsed first, a parse failure yielding `0`). -/
def firefly_json_size (data : Json) (path : Option (List Char)) : Nat :=
  if path_truthy path then
    py_len (firefly_json_get data (path.getD []))
  else
    match data with
    | Json.str s =>
        match loads s with
        | some target => py_len target
        | none => 0
    | _ => py_len data

/-- The `isinstance` cascade of `firefly_json_type`, classifying a value into
a type name.  `bool` is checked before `int`, as in the source (Python
`bool` is a subclass of `int`).  The source's final `else: return 'unknown'`
branch is unreachable for deserialized JSON values — `None`, `bool`,
`int`/`float`, `str`, `list` and `dict` are matched by the six earlier
branches — so it has no counterpart over `Json`. -/
def type_name (target : Json) : String :=
  match target with
  | Json.null => "null"
  | Json.bool _ => "boolean"
  | Json.num _ => "number"
  | Json.str _ => "string"
  | Json.arr _ => "array"
  | Json.obj _ => "object"

/-- Source function `firefly_json_type(data, path=None)`: with a truthy path, classify the
value the path evaluates to; otherwise classify `data` itself (a `str`
argument being parsed first, a parse failure yielding `'string'`). -/
def firefly_json_type (data : Json) (path : Option (List Char)) : String :=
  if path_truthy path then
    type_name (firefly_json_get data (path.getD []))
  else
    match data with
    | Json.str s =>
        match loads s with
        | some target => type_name target
        | none => "string"
    | _ => type_name data

example : loads "\x7b\"a\": [1, 2, 3]\x7d".data =
    some (Json.obj [("a".data, Json.arr [Json.num 1, Json.num 2, Json.num 3])]) := rfl
example : loads "\x7b".data = none := rfl
example : loads "not json".data = none := rfl
example : firefly_json_type (Json.obj []) (some "$.missing".data) = "null" := rfl
example : firefly_json_exists (Json.obj [("a".data, Json.null)]) "$.a".data = false := rfl
example : firefly_json_size (Json.obj [("a".data, Json.arr [Json.num 1, Json.num 2, Json.num 3])])
    (some "$.a".data) = 3 := rfl

example : json_path_get (Json.obj [("a".data, Json.num 1)]) "$.a".data = Json.num 1 := rfl
example : json_path_get (Json.obj [("a".data, Json.arr [Json.num 1, Json.num 2, Json.num 3])])
    "$.a[2]".data = Json.num 3 := rfl
example :
    json_path_get
      (Json.obj [("x".data, Json.obj [("y".data, Json.obj [("z".data, Json.num 1)])]),
                 ("z".data, Json.num 2)])
      "$..z".data = Json.num 2 := rfl

/-! ### Spec-side rendering of the recursive field search

Claim C3 states the recursive search the way the spec words it.  The
definitions below follow those words — "recurse into each value in iteration
order and return the first non-absent result" — by collecting every
sub-result and taking the first non-absent one, in contrast to the
short-circuiting loop of the source-side `recursive_search`.  The refinement
lemmas then prove the two agree everywhere. -/

/-- The first non-absent result in a list of results, or absent when there is
none (the spec's "return the first non-absent result"). -/
def first_found : List Json → Json
  | [] => Json.null
  | Json.null :: rest => first_found rest
  | r :: _ => r

mutual

/-- The recursive field search as the spec words it: an object containing the
field as a key returns its bound value immediately; otherwise an object
recurses into each value in iteration order and returns the first non-absent
result; an array recurses into each element in order and returns the first
non-absent result; everything else is absent. -/
def recursive_search_spec : Json → List Char → Json
  | Json.obj fields, field =>
      if dict_contains fields field then dict_get fields field
      else first_found (value_results fields field)
  | Json.arr items, field => first_found (item_results items field)
  | _, _ => Json.null

/-- The sub-results of searching each value of an object, in iteration
order. -/
def value_results : List (List Char × Json) → List Char → List Json
  | [], _ => []
  | (_, v) :: rest, field => recursive_search_spec v field :: value_results rest field

/-- The sub-results of searching each element of an array, in order. -/
def item_results : List Json → List Char → List Json
  | [], _ => []
  | item :: rest, field => recursive_search_spec item field :: item_results rest field

end

mutual

/-- The source-side search agrees with the spec-side one on every value. -/
theorem recursive_search_eq_spec :
    ∀ (d : Json) (f : List Char), recursive_search d f = recursive_search_spec d f
  | Json.null, _ => rfl
  | Json.bool _, _ => rfl
  | Json.num _, _ => rfl
  | Json.str _, _ => rfl
  | Json.obj fields, f => by
      have hsv := search_values_eq fields f
      cases h : dict_contains fields f <;>
        simp only [recursive_search, recursive_search_spec, h, if_true, if_false,
          Bool.false_eq_true, hsv]
  | Json.arr items, f => by
      have hsi := search_items_eq items f
      simpa only [recursive_search, recursive_search_spec] using hsi

/-- The short-circuiting value loop computes the first non-absent
sub-result. -/
theorem search_values_eq :
    ∀ (fields : List (List Char × Json)) (f : List Char),
      search_values fields f = first_found (value_results fields f)
  | [], _ => rfl
  | (k, v) :: rest, f => by
      have ih := recursive_search_eq_spec v f
      have ih2 := search_values_eq rest f
      simp only [search_values, value_results, ih]
      cases recursive_search_spec v f <;> simp [first_found, ih2]

/-- The short-circuiting element loop computes the first non-absent
sub-result. -/
theorem search_items_eq :
    ∀ (items : List Json) (f : List Char),
      search_items items f = first_found (item_results items f)
  | [], _ => rfl
  | item :: rest, f => by
      have ih := recursive_search_eq_spec item f
      have ih2 := search_items_eq rest f
      simp only [search_items, item_results, ih]
      cases recursive_search_spec item f <;> simp [first_found, ih2]

end

/-- The sample document of the spec's index-bounds and wildcard examples. -/
def sample_doc : Json :=
  Json.obj [("a".data, Json.arr [Json.num 1, Json.num 2, Json.num 3])]

/-! ### The claims -/

/-- C1 (counterexample to the claim as stated): in `{"a": null}` the key `"a"`
is present and bound to the JSON null value, yet `exists` returns `false` —
the claim says a found JSON null counts as existing. -/
theorem claim_C1_counterexample :
    dict_contains [("a".data, Json.null)] "a".data = true ∧
    firefly_json_exists (Json.obj [("a".data, Json.null)]) "$.a".data = false :=
  ⟨rfl, rfl⟩

/-- C1 (amended): `exists(D, P)` is true iff `evaluate(D, P)` is not `None`;
because the implementation represents both "absent" and the JSON null value
as `None`, a found JSON null makes `exists` return `false`, not `true`. -/
theorem claim_C1 (data : Json) (path : List Char) :
    firefly_json_exists data path = true ↔ firefly_json_get data path ≠ Json.null := by
  unfold firefly_json_exists
  cases firefly_json_get data path <;> simp

/-- C2 (counterexample to the claim as stated): on
`{"x": {"y": {"z": 1}}, "z": 2}` the query `$..z` returns `2`, not `1`. -/
theorem claim_C2_counterexample :
    json_path_get
      (Json.obj [("x".data, Json.obj [("y".data, Json.obj [("z".data, Json.num 1)])]),
                 ("z".data, Json.num 2)])
      "$..z".data = Json.num 2 ∧
    json_path_get
      (Json.obj [("x".data, Json.obj [("y".data, Json.obj [("z".data, Json.num 1)])]),
                 ("z".data, Json.num 2)])
      "$..z".data ≠ Json.num 1 := by
  refine ⟨rfl, fun h => ?_⟩
  exact absurd (Json.num.inj h) (by decide)

/-- C2 (amended): `evaluate({"x":{"y":{"z":1}},"z":2}, "$..z")` returns `2`:
the recursive search tests the current object's own keys before recursing
into any value, so the top-level binding of `"z"` wins over the occurrence
nested inside `x.y`. -/
theorem claim_C2 :
    json_path_get
      (Json.obj [("x".data, Json.obj [("y".data, Json.obj [("z".data, Json.num 1)])]),
                 ("z".data, Json.num 2)])
      "$..z".data = Json.num 2 := rfl

/-- C3: for every value `D` and field name `f`, evaluating `$..f` performs
the depth-first pre-order search exactly as the claim words it: an object
containing `f` as a key returns its bound value immediately; otherwise an
object recurses into each value in iteration order and an array into each
element in order, returning the first non-absent result; anything else is
absent (`recursive_search_spec` is the claim's wording, definitionally). -/
theorem claim_C3 (D : Json) (f : List Char) :
    json_path_get D ('$' :: '.' :: '.' :: f) = recursive_search_spec D f := by
  have h : json_path_get D ('$' :: '.' :: '.' :: f) = recursive_search D f := by
    simp [json_path_get]
  rw [h, recursive_search_eq_spec]

/-- C4 (counterexample to the claim as stated): `type_of({}, "$.missing")`
returns `"null"`, not `"unknown"`. -/
theorem claim_C4_counterexample :
    firefly_json_type (Json.obj []) (some "$.missing".data) = "null" ∧
    ("null" : String) ≠ "unknown" :=
  ⟨rfl, by decide⟩

/-- C4 (amended): for every value `D` and nonempty path `P` on which
evaluation returns `None`, `type_of(D, P)` returns `"null"` — the absent
result is the same `None` as a JSON null, and the source's `'unknown'`
branch is unreachable for JSON values. -/
theorem claim_C4 (D : Json) (P : List Char) (hne : P ≠ [])
    (habs : firefly_json_get D P = Json.null) :
    firefly_json_type D (some P) = "null" := by
  have ht : path_truthy (some P) = true := by
    cases P with
    | nil => exact absurd rfl hne
    | cons c cs => rfl
  simp [firefly_json_type, ht, habs, type_name]

/-- C4 witness: the amended claim applied to `type_of({}, "$.missing")`. -/
theorem claim_C4_witness :
    firefly_json_type (Json.obj []) (some "$.missing".data) = "null" :=
  claim_C4 (Json.obj []) "$.missing".data (by decide) rfl

/-- C5 (counterexample to the claim as stated): `"{"` is not valid JSON, and
with the path `$.a` the operation `type_of` returns `"null"` on it, not the
claimed `"unknown"`. -/
theorem claim_C5_counterexample :
    loads "\x7b".data = none ∧
    firefly_json_type (Json.str "\x7b".data) (some "$.a".data) = "null" ∧
    ("null" : String) ≠ "unknown" :=
  ⟨rfl, rfl, by decide⟩

/-- C5 (amended): for every raw text `s` that fails to parse as JSON and
every nonempty path `P`, the operations return their empty defaults rather
than raising: `get` returns `None`, `size` returns `0`, `type_of` returns
`"null"` (for an empty or omitted path it returns `"string"` instead), and
`exists` returns `false`. -/
theorem claim_C5 (s : List Char) (P : List Char) (hfail : loads s = none)
    (hne : P ≠ []) :
    firefly_json_get (Json.str s) P = Json.null ∧
    firefly_json_size (Json.str s) (some P) = 0 ∧
    firefly_json_type (Json.str s) (some P) = "null" ∧
    firefly_json_exists (Json.str s) P = false := by
  have hget : firefly_json_get (Json.str s) P = Json.null := by
    simp [firefly_json_get, hfail]
  have ht : path_truthy (some P) = true := by
    cases P with
    | nil => exact absurd rfl hne
    | cons c cs => rfl
  refine ⟨hget, ?_, ?_, ?_⟩
  · simp [firefly_json_size, ht, hget, py_len]
  · simp [firefly_json_type, ht, hget, type_name]
  · simp [firefly_json_exists, hget]

/-- C5 witness: the amended claim applied to the unparseable text `"{"` and
the path `$.a`. -/
theorem claim_C5_witness :
    loads "\x7b".data = none ∧
    firefly_json_get (Json.str "\x7b".data) "$.a".data = Json.null ∧
    firefly_json_size (Json.str "\x7b".data) (some "$.a".data) = 0 ∧
    firefly_json_type (Json.str "\x7b".data) (some "$.a".data) = "null" ∧
    firefly_json_exists (Json.str "\x7b".data) "$.a".data = false := by
  have h := claim_C5 "\x7b".data "$.a".data rfl (by decide)
  exact ⟨rfl, h.1, h.2.1, h.2.2.1, h.2.2.2⟩

/-- C6: every path that is empty or does not start with the root marker `$`
evaluates to `None`; being a total function of the embedding, the evaluator
raises nothing. -/
theorem claim_C6 (D : Json) (P : List Char) (h : P = [] ∨ P.head? ≠ some '$') :
    json_path_get D P = Json.null := by
  unfold json_path_get
  rw [if_pos h]

/-- C6 witness: the claim applied to the rootless path `a.b`. -/
theorem claim_C6_witness :
    (("a.b".data : List Char) = [] ∨ ("a.b".data : List Char).head? ≠ some '$') ∧
    json_path_get (Json.obj [("a".data, Json.num 1)]) "a.b".data = Json.null := by
  have h : ("a.b".data : List Char) = [] ∨ ("a.b".data : List Char).head? ≠ some '$' := by
    right
    decide
  exact ⟨h, claim_C6 (Json.obj [("a".data, Json.num 1)]) "a.b".data h⟩

/-- C7: an index segment `[i]` resolves to the element at position `i` when
the current value is an array and `0 <= i < length`, and to `None` otherwise
(out of range, negative, or not an array); in particular
`evaluate({"a":[1,2,3]}, "$.a[2]") == 3`,
`evaluate({"a":[1,2,3]}, "$.a[3]")` is absent, and
`evaluate({"a":[1,2,3]}, "$.a[-1]")` is absent. -/
theorem claim_C7 :
    (∀ (data : Json) (inner : List Char) (i : Int), py_int inner = some i →
      navigate_segment data ('[' :: (inner ++ [']'])) =
        (match data with
         | Json.arr items =>
             if 0 ≤ i ∧ i < (items.length : Int) then items.getD i.toNat Json.null
             else Json.null
         | _ => Json.null)) ∧
    json_path_get sample_doc "$.a[2]".data = Json.num 3 ∧
    json_path_get sample_doc "$.a[3]".data = Json.null ∧
    json_path_get sample_doc "$.a[-1]".data = Json.null := by
  refine ⟨?_, rfl, rfl, rfl⟩
  intro data inner i hi
  have hstar : ¬((('[' :: (inner ++ [']'])).drop 1).dropLast = ['*']) := by
    simp only [List.drop_succ_cons, List.drop_zero, List.dropLast_concat]
    intro he
    rw [he] at hi
    exact Option.noConfusion hi
  have hcond : ('[' :: (inner ++ [']'])).head? = some '[' ∧
      ('[' :: (inner ++ [']'])).getLast? = some ']' := by
    constructor
    · rfl
    · show (('[' :: inner) ++ [']']).getLast? = some ']'
      exact List.getLast?_concat _
  unfold navigate_segment
  rw [if_pos hcond, if_neg hstar]
  simp only [List.drop_succ_cons, List.drop_zero, List.dropLast_concat, hi]

/-- C7 witness: the general part of the claim applied to the segment `[2]`
over the array `[9, 8, 7]`. -/
theorem claim_C7_witness :
    py_int ['2'] = some 2 ∧
    navigate_segment (Json.arr [Json.num 9, Json.num 8, Json.num 7])
      ('[' :: (['2'] ++ [']'])) = Json.num 7 := by
  refine ⟨rfl, ?_⟩
  have h := claim_C7.1 (Json.arr [Json.num 9, Json.num 8, Json.num 7]) ['2'] 2 rfl
  rw [h]
  rfl

/-- C8: the wildcard segment `[*]` returns the current value itself unchanged
when it is an array and `None` otherwise, and
`evaluate({"a":[1,2,3]}, "$.a[*]") == [1,2,3]`. -/
theorem claim_C8 :
    (∀ data : Json, navigate_segment data ['[', '*', ']'] =
      (match data with
       | Json.arr _ => data
       | _ => Json.null)) ∧
    json_path_get sample_doc "$.a[*]".data =
      Json.arr [Json.num 1, Json.num 2, Json.num 3] := by
  refine ⟨?_, rfl⟩
  intro data
  cases data <;> rfl

/-- C9: during a recursive field search, a direct child whose own search
comes back `None` — in particular one whose only occurrence of the field is
bound to the JSON null value — is skipped, and the search continues with the
remaining children in traversal order; if every occurrence is bound to null
the whole search is absent.  In `{"a":{"z":null},"b":{"z":5}}` the query
`$..z` therefore returns `5`, and in `{"a":{"z":null}}` it is absent. -/
theorem claim_C9 :
    (∀ (f name : List Char) (j : Json) (rest : List (List Char × Json)),
      name ≠ f → recursive_search j f = Json.null →
      recursive_search (Json.obj ((name, j) :: rest)) f =
        recursive_search (Json.obj rest) f) ∧
    json_path_get
      (Json.obj [("a".data, Json.obj [("z".data, Json.null)]),
                 ("b".data, Json.obj [("z".data, Json.num 5)])])
      "$..z".data = Json.num 5 ∧
    json_path_get (Json.obj [("a".data, Json.obj [("z".data, Json.null)])])
      "$..z".data = Json.null := by
  refine ⟨?_, rfl, rfl⟩
  intro f name j rest hne hnull
  have hc : dict_contains ((name, j) :: rest) f = dict_contains rest f := by
    simp [dict_contains, hne]
  have hg : dict_get ((name, j) :: rest) f = dict_get rest f := by
    simp [dict_get, hne]
  have hs : search_values ((name, j) :: rest) f = search_values rest f := by
    simp only [search_values, hnull]
  simp only [recursive_search, hc, hg, hs]

/-- C9 witness: the general part of the claim applied to
`{"a":{"z":null},"b":{"z":5}}`, whose child `{"z":null}` is skipped. -/
theorem claim_C9_witness :
    ("a".data : List Char) ≠ "z".data ∧
    recursive_search (Json.obj [("z".data, Json.null)]) "z".data = Json.null ∧
    recursive_search
      (Json.obj [("a".data, Json.obj [("z".data, Json.null)]),
                 ("b".data, Json.obj [("z".data, Json.num 5)])]) "z".data =
      recursive_search (Json.obj [("b".data, Json.obj [("z".data, Json.num 5)])])
        "z".data := by
  refine ⟨by decide, rfl, ?_⟩
  exact claim_C9.1 "z".data "a".data (Json.obj [("z".data, Json.null)])
    [("b".data, Json.obj [("z".data, Json.num 5)])] (by decide) rfl

/-- C10: a segment that opens a bracket but never closes it is not parsed as
an index — it is looked up as a literal object key.  The segmenter keeps
`"[1"` as one segment of the path `$.a[1`, navigation treats it as a field
name, `{"a": {"[1": 7}}` yields `7`, and `{"a": [1,2,3]}` yields `None`,
without raising. -/
theorem claim_C10 :
    (∀ (data : Json) (s : List Char), s.head? = some '[' → s.getLast? ≠ some ']' →
      navigate_segment data s =
        (match data with
         | Json.obj fields => dict_get fields s
         | _ => Json.null)) ∧
    parse_path_segments "a[1".data = ["a".data, "[1".data] ∧
    json_path_get (Json.obj [("a".data, Json.obj [("[1".data, Json.num 7)])])
      "$.a[1".data = Json.num 7 ∧
    json_path_get sample_doc "$.a[1".data = Json.null := by
  refine ⟨?_, rfl, rfl, rfl⟩
  intro data s hh hl
  unfold navigate_segment
  rw [if_neg]
  intro hcon
  exact hl hcon.2

/-- C10 witness: the general part of the claim applied to the unclosed
segment `[1` over the object `{"[1": 7}`. -/
theorem claim_C10_witness :
    ((("[1".data : List Char).head? = some '[' ∧
      ("[1".data : List Char).getLast? ≠ some ']') ∧
     navigate_segment (Json.obj [("[1".data, Json.num 7)]) "[1".data = Json.num 7) := by
  refine ⟨⟨rfl, by decide⟩, ?_⟩
  have h := claim_C10.1 (Json.obj [("[1".data, Json.num 7)]) "[1".data rfl (by decide)
  rw [h]
  rfl
